import Mathlib

/-!
A formal model of Cytosim's interactive display and image-export code
(`src/play/player_disp.cc`), as a shallow embedding in Lean.

Pure computations (style selection, label and report text construction,
auto-scaling arithmetic, capture sequencing) are translated directly from
the source.  Collaborator code that lives outside the sampled sources (the
`SaveImage` exporter, `View`, `Glossary` and the simulation worker) is
represented by explicit state records and oracle parameters; wherever such
a collaborator's behaviour matters, the definition carries a doc comment
saying what it models.

`real` values are modelled as rationals, C++ `int` as `Int`, C++ strings
as `String` or `List Char`, exceptions as `Except`, and observable side
effects (locking, drawing, invoking the reporting machinery) as explicit
event lists or call counters returned alongside the result.
-/

namespace Player

/-- The three concrete display styles: `Display1`, `Display2`, `Display3`
(`display1.h` .. `display3.h`). Only the identity of the constructed
variant matters here. -/
inductive StyleKind where
  | display1
  | display2
  | display3
deriving DecidableEq, Repr

/-- The canonical integer tag of each style variant (the id that selects it
in the `switch` of `Player::setStyle`). -/
def styleTag : StyleKind → Int
  | .display1 => 1
  | .display2 => 2
  | .display3 => 3

/-- The variant constructed by the `switch (style)` in `Player::setStyle`
(player_disp.cc:35-41): `case 2` builds `Display2`, `case 3` builds
`Display3`, and `default:` falls through to `case 1` building `Display1`. -/
def styleForId (style : Int) : StyleKind :=
  if style = 2 then .display2
  else if style = 3 then .display3
  else .display1

/-- The state of the player that `Player::setStyle` touches: the active
style object `mDisplay` (null at startup), the depth of the OpenGL
attribute stack (`glPushAttrib`/`glPopAttrib`), and the display
configuration's recorded style tag `DP.style`. -/
structure PlayerState where
  mDisplay : Option StyleKind
  glDepth : Nat
  dpStyle : Int
deriving DecidableEq, Repr

/-- `Player::setStyle` (player_disp.cc:22-56): if a style is active, pop the
saved OpenGL state and delete it; push the current OpenGL state; construct
the variant selected by `style` (defaulting to `Display1`); record the raw
requested id in `DP.style`.  The per-window re-initialisation loop only
touches GL state of open windows and is not modelled.  The function is
total: no error is signalled for any input. -/
def setStyle (style : Int) (st : PlayerState) : PlayerState :=
  let st1 :=
    match st.mDisplay with
    | some _ => { st with mDisplay := none, glDepth := st.glDepth - 1 }
    | none => st
  { st1 with glDepth := st1.glDepth + 1,
             mDisplay := some (styleForId style),
             dpStyle := style }

/-- The per-window camera/viewport fields of `View` that this code reads or
writes: world-units view size, zoom level, the auto-scale countdown, and the
pixel window geometry. -/
structure ViewState where
  view_size : ℚ
  zoom : ℚ
  auto_scale : Int
  window_w : Int
  window_h : Int
deriving DecidableEq, Repr

/-- The zoom-out multiplier `0.933033` applied by `autoScale`. -/
def zoomFactor : ℚ := 933033 / 1000000

/-- The accumulation `rad = max(rad, spc->max_extension())` over all spaces,
starting from `rad = 0` (player_disp.cc:191-193).  A space is represented
by its reported `max_extension()`. -/
def maxExtension (spaces : List ℚ) : ℚ := spaces.foldl max 0

/-- Modelled from the spec: `View::zoom_in(z)` applies the multiplier `z`
to the view's zoom level ("applies a fixed zoom-out multiplier (0.933033)
to leave a framing margin"); `View` is not part of the sampled sources. -/
def zoomIn (z : ℚ) (view : ViewState) : ViewState :=
  { view with zoom := view.zoom * z }

/-- `Player::autoScale` (player_disp.cc:189-201): take the maximum reported
extension over all spaces (accumulated from 0); if it is positive, set
`view_size` to twice that value, zoom in by `0.933033`, and decrement the
auto-scale countdown; otherwise do nothing. -/
def autoScale (spaces : List ℚ) (view : ViewState) : ViewState :=
  let rad := maxExtension spaces
  if 0 < rad then
    { zoomIn zoomFactor view with
        view_size := 2 * rad,
        auto_scale := view.auto_scale - 1 }
  else view

/-- The `arg.find(' ')` / `arg.substr` logic of `Player::buildReport`
(player_disp.cc:103-108): split at the first space into the report kind and,
when a space exists, the options tail handed to `Glossary::read_string`. -/
def splitFirstSpace : List Char → List Char × Option (List Char)
  | [] => ([], none)
  | c :: cs =>
    if c = ' ' then ([], some cs)
    else
      let r := splitFirstSpace cs
      (c :: r.1, r.2)

/-- The reporting machinery of the simulation model, seen from
`Player::buildReport`: `Simul::report` receives the report kind and the
glossary built from the options tail (the `Glossary` is kept as the raw
options text, since its parsing is outside these sources), and either
produces a report text or throws an `Exception`, modelled as `Except` with
the exception's `what()` text as the error. -/
structure ReportOracle where
  report : List Char → Option (List Char) → Except (List Char) (List Char)

/-- Observable invocations made by one `buildReport` call: how often the
options parser (`Glossary::read_string`) and the reporting machinery
(`Simul::report`) were entered. -/
structure ReportCalls where
  parses : Nat
  reports : Nat
deriving DecidableEq, Repr

/-- `Player::buildReport` (player_disp.cc:97-124): empty input returns the
empty string at once; otherwise the argument is split at the first space
(the tail, when present, being parsed as options), `Simul::report` is
asked for the text, a leading newline is stripped when the text has more
than one character and starts with a newline, and a thrown `Exception`
becomes the returned text.  Alongside the text, the call counts record the
invocations of the parser and of the reporting machinery. -/
def buildReport (o : ReportOracle) (arg : List Char) : List Char × ReportCalls :=
  if arg ≠ [] then
    let ks := splitFirstSpace arg
    let parses : Nat := match ks.2 with | some _ => 1 | none => 0
    match o.report ks.1 ks.2 with
    | .ok res =>
      (if 1 < res.length ∧ res.head? = some '\n' then res.tail else res,
       ⟨parses, 1⟩)
    | .error e => (e, ⟨parses, 1⟩)
  else ([], ⟨0, 0⟩)

/-- The display-configuration record `DP` as far as this code is concerned;
only its identity matters for `readDisplayString`. -/
structure DPState where
  style : Int
  point_value : ℚ
deriving DecidableEq, Repr

/-- Modelled from the spec: the configuration collaborators used by
`Player::readDisplayString`, none of which is part of the sampled sources —
the `Glossary` constructor that parses the raw text ("a property-parsing
utility that turns textual key=value configuration into typed fields"),
`DisplayProp::read` applying the glossary to the display configuration, and
`View::read` applying it to the viewing surface.  Each step either yields
its updated record or throws, modelled as `Except` carrying the
exception text. -/
structure ConfigEnv where
  mkGlossary : List Char → Except (List Char) Unit
  dpRead : List Char → DPState → Except (List Char) DPState
  viewRead : List Char → ViewState → Except (List Char) ViewState

/-- `Player::readDisplayString` (player_disp.cc:283-300): build a glossary
from the text, apply it to `DP`, record the surface's width and height,
apply it to the surface, then force the surface's `window_size` back to the
recorded values; a thrown exception is caught, logged, and leaves the
records as they were when it was thrown. -/
def readDisplayString (env : ConfigEnv) (view : ViewState) (dp : DPState)
    (str : List Char) : ViewState × DPState :=
  match env.mkGlossary str with
  | .error _ => (view, dp)
  | .ok _ =>
    match env.dpRead str dp with
    | .error _ => (view, dp)
    | .ok dp2 =>
      let W := view.window_w
      let H := view.window_h
      match env.viewRead str view with
      | .error _ => (view, dp2)
      | .ok v2 => ({ v2 with window_w := W, window_h := H }, dp2)

/-- One observable step of the magnified-capture routine: taking or
releasing the simulation worker's lock (`thread.lock` / `thread.unlock`),
the preparation step (`prepareDisplay`), opening and closing the render
target (`View::openDisplay` / `View::closeDisplay`), and one invocation of
the frame-draw callback `displayMagnified` rendering one tile. -/
inductive CaptureEvent where
  | lock
  | unlock
  | prepare
  | openDisp
  | draw
  | closeDisp
deriving DecidableEq, Repr

/-- Modelled from the spec: the capabilities of the `SaveImage` exporter
(not part of the sampled sources).  `supported` is the format predicate
`SaveImage::supported`; `directTiles = some n` means
`SaveImage::saveMagnifiedImage` succeeds after invoking the frame-draw
callback for its `n` tiles, while `none` means the backend cannot render
into an oversized buffer and the direct capture fails without drawing;
`compositeTiles` and `compositeErr` are the tile count and result code of
the fallback `SaveImage::saveCompositeImage`. -/
structure CaptureEnv where
  supported : String → Bool
  directTiles : Option Nat
  compositeTiles : Nat
  compositeErr : Int

/-- Modelled from the spec: `SaveImage::saveMagnifiedImage` invokes the
frame-draw callback once per tile and returns 0, or fails with a nonzero
code when the backend lacks direct oversized capture. -/
def saveMagnifiedImage (env : CaptureEnv) : Int × List CaptureEvent :=
  match env.directTiles with
  | some n => (0, List.replicate n .draw)
  | none => (1, [])

/-- Modelled from the spec: `SaveImage::saveCompositeImage` renders its
tiles independently through the frame-draw callback and assembles them,
returning its result code. -/
def saveCompositeImage (env : CaptureEnv) : Int × List CaptureEvent :=
  (env.compositeErr, List.replicate env.compositeTiles .draw)

/-- The number of tiles actually drawn by a capture that passed the format
check: the direct tiles when the backend supports direct capture, the
composite tiles otherwise. -/
def capturedTiles (env : CaptureEnv) : Nat :=
  match env.directTiles with
  | some n => n
  | none => env.compositeTiles

/-- `Player::saveViewMagnified` (player_disp.cc:372-402), returning its
result code together with the sequence of observable events: an
unsupported format is rejected at once with -1, before any locking or
rendering; otherwise the worker is locked, the preparation step runs, the
render target opens, the direct capture is attempted, on its failure the
composite capture runs, and the render target is closed before the worker
is unlocked.  The parameters `mag`, `name` and `downsample` are forwarded
to the exporter and do not influence the event sequence. -/
def saveViewMagnified (env : CaptureEnv) (_mag : Nat) (_name : String)
    (format : String) (_downsample : Nat) : Int × List CaptureEvent :=
  if env.supported format = false then (-1, [])
  else
    let direct := saveMagnifiedImage env
    if direct.1 ≠ 0 then
      let comp := saveCompositeImage env
      (comp.1,
       [.lock, .prepare, .openDisp] ++ direct.2 ++ comp.2 ++ [.closeDisp, .unlock])
    else
      (direct.1, [.lock, .prepare, .openDisp] ++ direct.2 ++ [.closeDisp, .unlock])

/-- Modelled from the spec: the final pixel dimensions of the direct
magnified capture — "one output image whose final pixel dimensions are
`magnification × viewport size / downsample`" — matching the dimensions
printed on the success path (player_disp.cc:398). -/
def saveMagnifiedImage_dims (mag W H downsample : Nat) : Nat × Nat :=
  (mag * W / downsample, mag * H / downsample)

/-- Modelled from the spec: the final pixel dimensions of the composite
fallback capture, whose tiles cover the `magnification ×`-scaled virtual
framebuffer; `SaveImage::saveCompositeImage` receives the viewport size,
the magnification and the pixel size but no downsample factor
(player_disp.cc:393), so its dimensions cannot depend on downsample. -/
def saveCompositeImage_dims (mag W H : Nat) (_pixelSize : ℚ) : Nat × Nat :=
  (mag * W, mag * H)

/-- The decimal digits of a natural number, most significant first:
the character stream produced for an integer by `operator<<`. -/
def natChars (n : Nat) : List Char :=
  if _h : n < 10 then [Nat.digitChar n]
  else
    natChars (n / 10) ++ [Nat.digitChar (n % 10)]
decreasing_by exact Nat.div_lt_self (by omega) (by omega)

/-- The character stream produced for a signed integer by `operator<<`. -/
def intChars (n : Int) : List Char :=
  if n < 0 then '-' :: natChars n.natAbs else natChars n.natAbs

/-- The character stream produced for a `real` under the active
`std::fixed` / `precision(3)` stream flags (player_disp.cc:67-69): the
value rounded to thousandths, as sign, integer digits, a point and exactly
three fractional digits. -/
def fmtFixed3 (q : ℚ) : List Char :=
  let m : Int := round (q * 1000)
  (if m < 0 then ['-'] else [])
    ++ natChars (m.natAbs / 1000)
    ++ '.' :: (List.replicate (3 - (natChars (m.natAbs % 1000)).length) '0'
                ++ natChars (m.natAbs % 1000))

/-- Left-padding with spaces to the stream width `w`, as produced by
`std::setw(w)` for the immediately following insertion. -/
def padLeft (w : Nat) (l : List Char) : List Char :=
  List.replicate (w - l.length) ' ' ++ l

/-- The mouse-driven `Single` returned by `thread.handle()`, reduced to the
two observations `buildLabel` makes of it: whether it is attached and the
norm of the force it exerts. -/
structure Handle where
  attached : Bool
  forceNorm : ℚ
deriving DecidableEq

/-- The session state read by `Player::buildLabel`: the simulation time,
the optional mouse handle, the worker's liveness (`thread.alive()`), the
live-mode flag `goLive`, the configured period `PP.period` and the
worker's current frame index. -/
structure LabelState where
  time : ℚ
  handle : Option Handle
  alive : Bool
  goLive : Bool
  period : Nat
  currentFrame : Int
deriving DecidableEq

/-- The first line of the label (player_disp.cc:69): the time, fixed to
three decimals in a field of width 8, followed by the unit suffix `s`. -/
def timePart (s : LabelState) : List Char :=
  padLeft 8 (fmtFixed3 s.time) ++ ['s']

/-- The optional handle line (player_disp.cc:72-74): when a mouse handle
exists and is attached, a newline, `Handle: `, the force norm and `pN`. -/
def handlePart (s : LabelState) : List Char :=
  match s.handle with
  | some h =>
    if h.attached then
      '\n' :: ("Handle: ".data ++ fmtFixed3 h.forceNorm ++ "pN".data)
    else []
  | none => []

/-- The final line of the label (player_disp.cc:76-86): `Live` — followed
by the period when it exceeds 1 — when the worker is alive and playback is
live, and `Frame ` with the current frame index otherwise. -/
def tailPart (s : LabelState) : List Char :=
  if s.alive && s.goLive then
    '\n' :: ("Live".data
      ++ (if 1 < s.period then ' ' :: natChars s.period else []))
  else
    '\n' :: ("Frame ".data ++ intChars s.currentFrame)

/-- `Player::buildLabel` (player_disp.cc:64-89): the time line, the
optional handle line, and the `Live`-or-`Frame` line. -/
def buildLabel (s : LabelState) : List Char :=
  timePart s ++ handlePart s ++ tailPart s

/-- The characters a formatted number can consist of: digits, a minus sign
and a decimal point. -/
def numericChar (c : Char) : Bool := c.isDigit || c = '-' || c = '.'

end Player

/-- A concrete viewing surface used to instantiate theorems. -/
def viewW : Player.ViewState :=
  { view_size := 10, zoom := 1, auto_scale := 5, window_w := 800, window_h := 600 }

/-- A concrete player state used to instantiate theorems. -/
def playerW : Player.PlayerState :=
  { mDisplay := some .display2, glDepth := 1, dpStyle := 2 }

/-- An oracle whose report text is a single newline character, for every
report kind: the case `res.size() == 1` of player_disp.cc:114. -/
def newlineOracle : Player.ReportOracle :=
  { report := fun _ _ => .ok ['\n'] }

/-- An oracle whose report text is a newline followed by `ok`, for every
report kind. -/
def newlineTextOracle : Player.ReportOracle :=
  { report := fun _ _ => .ok ('\n' :: ['o', 'k']) }

/-- A capture environment accepting every format, with a backend that
supports direct capture in 2 tiles. -/
def captureEnvYes : Player.CaptureEnv :=
  { supported := fun _ => true, directTiles := some 2,
    compositeTiles := 3, compositeErr := 0 }

/-- A capture environment rejecting every format. -/
def captureEnvNo : Player.CaptureEnv :=
  { supported := fun _ => false, directTiles := some 2,
    compositeTiles := 3, compositeErr := 0 }

/-- `List.foldl max` does not move off its seed when every element is
at most the seed. -/
theorem foldl_max_of_le (l : List ℚ) :
    ∀ acc : ℚ, (∀ r ∈ l, r ≤ acc) → l.foldl max acc = acc := by
  induction l with
  | nil => intro acc _; rfl
  | cons x xs ih =>
    intro acc h
    have hx : x ≤ acc := h x (List.mem_cons_self x xs)
    have hmax : max acc x = acc := max_eq_left hx
    simp only [List.foldl_cons, hmax]
    exact ih acc fun r hr => h r (List.mem_cons_of_mem x hr)

/-- C4: if every candidate extension is ≤ 0, `autoScale` leaves the viewing
surface (in particular its view size and auto-scale counter) unchanged; if
the maximum extension `R` is positive, the resulting `view_size` is `2R`
and the auto-scale counter has decreased by exactly 1. -/
theorem autoScale_spec (spaces : List ℚ) (v : Player.ViewState) :
    ((∀ r ∈ spaces, r ≤ 0) → Player.autoScale spaces v = v)
    ∧ (0 < Player.maxExtension spaces →
        (Player.autoScale spaces v).view_size = 2 * Player.maxExtension spaces
        ∧ (Player.autoScale spaces v).auto_scale = v.auto_scale - 1) := by
  constructor
  · intro h
    have hmax : Player.maxExtension spaces = 0 := foldl_max_of_le spaces 0 h
    simp [Player.autoScale, hmax]
  · intro h
    simp [Player.autoScale, if_pos h, Player.zoomIn]

/-- Witness for C4: a space list with only non-positive extensions leaves the
surface unchanged; a space of extension 3 yields view size 6 and decrements
the counter from 5 to 4. -/
theorem autoScale_spec_witness :
    Player.autoScale [(-1 : ℚ)] viewW = viewW
    ∧ (Player.autoScale [(3 : ℚ)] viewW).view_size = 2 * Player.maxExtension [(3 : ℚ)]
    ∧ (Player.autoScale [(3 : ℚ)] viewW).auto_scale = viewW.auto_scale - 1 :=
  ⟨(autoScale_spec [(-1 : ℚ)] viewW).1 (by decide),
   ((autoScale_spec [(3 : ℚ)] viewW).2 (by decide)).1,
   ((autoScale_spec [(3 : ℚ)] viewW).2 (by decide)).2⟩

/-- C5: for every style id outside {1,2,3}, `setStyle` constructs the very
same variant as it constructs for id 1 (`Display1`), and — `setStyle` being
a total function — signals no error for the invalid input. -/
theorem setStyle_default_fallback (s : Int) (st : Player.PlayerState)
    (h : s ∉ ([1, 2, 3] : List Int)) :
    (Player.setStyle s st).mDisplay = (Player.setStyle 1 st).mDisplay := by
  simp only [List.mem_cons, List.not_mem_nil, or_false] at h
  push_neg at h
  obtain ⟨h1, h2, h3⟩ := h
  simp [Player.setStyle, Player.styleForId, h2, h3]

/-- Witness for C5: style id 7 is outside {1,2,3} and yields the same
variant as style id 1. -/
theorem setStyle_default_fallback_witness :
    (Player.setStyle 7 playerW).mDisplay = (Player.setStyle 1 playerW).mDisplay :=
  setStyle_default_fallback 7 playerW (by decide)

/-- C10: after `setStyle s`, the display configuration's recorded style tag
`DP.style` is the raw requested value `s` (player_disp.cc:42), even when
`s` is outside {1,2,3}: the constructed variant is then `Display1`, whose
canonical tag 1 differs from the stored tag `s`. -/
theorem setStyle_records_raw_id (s : Int) (st : Player.PlayerState) :
    (Player.setStyle s st).dpStyle = s
    ∧ (s ∉ ([1, 2, 3] : List Int) →
        (Player.setStyle s st).mDisplay = some .display1
        ∧ Player.styleTag (Player.styleForId s) ≠ s) := by
  refine ⟨rfl, fun h => ?_⟩
  simp only [List.mem_cons, List.not_mem_nil, or_false] at h
  push_neg at h
  obtain ⟨h1, h2, h3⟩ := h
  constructor
  · simp [Player.setStyle, Player.styleForId, h2, h3]
  · simp [Player.styleForId, Player.styleTag, h2, h3]
    omega

/-- Witness for C10: requesting style 5 stores tag 5 while activating
`Display1`, whose canonical tag is 1 ≠ 5. -/
theorem setStyle_records_raw_id_witness :
    (Player.setStyle 5 playerW).dpStyle = 5
    ∧ (Player.setStyle 5 playerW).mDisplay = some .display1
    ∧ Player.styleTag (Player.styleForId 5) ≠ 5 :=
  ⟨(setStyle_records_raw_id 5 playerW).1,
   ((setStyle_records_raw_id 5 playerW).2 (by decide)).1,
   ((setStyle_records_raw_id 5 playerW).2 (by decide)).2⟩

/-- C7: `buildReport` on the empty string returns exactly the empty string
and invokes neither the options parser nor the reporting machinery: its
observable call counts are both zero, for every behaviour of the
reporting oracle. -/
theorem buildReport_empty (o : Player.ReportOracle) :
    Player.buildReport o [] = ([], ⟨0, 0⟩) := rfl

/-- Counterexample for C8: for the non-empty expression `"x"`, the report
succeeds with the text `"\n"`, whose first character is a newline; the
claim then demands the text with the leading newline removed (the empty
string), but `buildReport` returns `"\n"` unchanged, because the source
strips the newline only when `res.size() > 1`. -/
theorem buildReport_lone_newline_kept :
    (newlineOracle.report ['x'] none = .ok ['\n']
      ∧ List.head? ['\n'] = some '\n')
    ∧ (Player.buildReport newlineOracle ['x']).1 = ['\n']
    ∧ (Player.buildReport newlineOracle ['x']).1 ≠ List.tail ['\n'] := by
  refine ⟨⟨rfl, rfl⟩, rfl, ?_⟩
  decide

/-- C8 amended: for every non-empty expression, when the report succeeds
with a text of more than one character whose first character is a newline,
`buildReport` returns the text with the single leading newline removed; a
shorter text — in particular the lone-newline text — or one not starting
with a newline is returned unchanged; when parsing-and-reporting fails
(thrown `Exception`), the failure description is returned instead. -/
theorem buildReport_spec (o : Player.ReportOracle) (arg : List Char)
    (h : arg ≠ []) :
    (∀ res, o.report (Player.splitFirstSpace arg).1 (Player.splitFirstSpace arg).2
        = .ok res →
      ((1 < res.length ∧ res.head? = some '\n') →
          (Player.buildReport o arg).1 = res.tail)
      ∧ (¬ (1 < res.length ∧ res.head? = some '\n') →
          (Player.buildReport o arg).1 = res))
    ∧ (∀ e, o.report (Player.splitFirstSpace arg).1 (Player.splitFirstSpace arg).2
        = .error e →
      (Player.buildReport o arg).1 = e) := by
  constructor
  · intro res hres
    constructor
    · intro hcond
      simp [Player.buildReport, h, hres, if_pos hcond]
    · intro hcond
      simp [Player.buildReport, h, hres, if_neg hcond]
  · intro e he
    simp [Player.buildReport, h, he]

/-- Witness for C8 amended: for the expression `"x"` and a report text
`"\nok"`, the leading newline is stripped and `"ok"` is returned. -/
theorem buildReport_spec_witness :
    (Player.buildReport newlineTextOracle ['x']).1 = ['o', 'k'] :=
  (((buildReport_spec newlineTextOracle ['x'] (by decide)).1
      ('\n' :: ['o', 'k']) rfl).1 (by decide))

/-- C9: for every viewing surface, display configuration and configuration
text, `readDisplayString` leaves the surface's window width and height at
their values from before the call: the parsed values are force-overwritten
back, so configuration text can never change the window geometry. -/
theorem readDisplayString_keeps_window (env : Player.ConfigEnv)
    (view : Player.ViewState) (dp : Player.DPState) (str : List Char) :
    (Player.readDisplayString env view dp str).1.window_w = view.window_w
    ∧ (Player.readDisplayString env view dp str).1.window_h = view.window_h := by
  unfold Player.readDisplayString
  rcases env.mkGlossary str with _ | _
  · exact ⟨rfl, rfl⟩
  · rcases hdp : env.dpRead str dp with _ | dp2
    · simp [hdp]
    · rcases hv : env.viewRead str view with _ | v2 <;> simp [hdp, hv]

/-- C1: for every capture with a supported format, the event sequence of
`saveViewMagnified` is exactly: lock, then the preparation step, then the
opened render target, then the drawn tiles, then the closed render target,
then unlock.  In particular the lock is taken before the preparation and
before any tile is drawn, and is released only after the last tile and the
closing of the render target, so the whole multi-pass capture sits inside
a single critical section. -/
theorem saveViewMagnified_single_critical_section (env : Player.CaptureEnv)
    (mag : Nat) (name format : String) (ds : Nat)
    (h : env.supported format = true) :
    (Player.saveViewMagnified env mag name format ds).2 =
      [.lock, .prepare, .openDisp]
        ++ List.replicate (Player.capturedTiles env) .draw
        ++ [.closeDisp, .unlock] := by
  unfold Player.saveViewMagnified
  rw [h]
  rcases hd : env.directTiles with _ | n <;>
    simp [Player.saveMagnifiedImage, Player.saveCompositeImage,
          Player.capturedTiles, hd]

/-- Witness for C1: a concrete capture whose trace is lock, prepare, open,
two tiles, close, unlock. -/
theorem saveViewMagnified_single_critical_section_witness :
    (Player.saveViewMagnified captureEnvYes 4 "img" "png" 1).2 =
      [.lock, .prepare, .openDisp]
        ++ List.replicate (Player.capturedTiles captureEnvYes) .draw
        ++ [.closeDisp, .unlock] :=
  saveViewMagnified_single_critical_section captureEnvYes 4 "img" "png" 1 rfl

/-- C2: for every format the exporter does not support, `saveViewMagnified`
returns the negative result -1 and produces no event at all: the worker
lock is never taken or released, the preparation step never runs, and the
frame-draw callback is never invoked. -/
theorem saveViewMagnified_rejects_unsupported (env : Player.CaptureEnv)
    (mag : Nat) (name format : String) (ds : Nat)
    (h : env.supported format = false) :
    (Player.saveViewMagnified env mag name format ds).1 < 0
    ∧ (Player.saveViewMagnified env mag name format ds).2 = [] := by
  unfold Player.saveViewMagnified
  rw [h]
  exact ⟨by norm_num, rfl⟩

/-- Witness for C2: a concrete rejected capture returns a negative code and
an empty event sequence. -/
theorem saveViewMagnified_rejects_unsupported_witness :
    (Player.saveViewMagnified captureEnvNo 4 "img" "xyz" 1).1 < 0
    ∧ (Player.saveViewMagnified captureEnvNo 4 "img" "xyz" 1).2 = [] :=
  saveViewMagnified_rejects_unsupported captureEnvNo 4 "img" "xyz" 1 rfl

/-- Counterexample for C3: at magnification 2, viewport 4×4 and downsample
2, the direct capture produces a 4×4 image while the composite fallback —
to which the downsample factor is never passed — produces 8×8: the two
paths do not have identical final pixel dimensions. -/
theorem capture_dims_differ_under_downsample :
    Player.saveMagnifiedImage_dims 2 4 4 2 = (4, 4)
    ∧ Player.saveCompositeImage_dims 2 4 4 1 = (8, 8)
    ∧ Player.saveMagnifiedImage_dims 2 4 4 2 ≠ Player.saveCompositeImage_dims 2 4 4 1 := by
  refine ⟨rfl, rfl, ?_⟩
  decide

/-- C3 amended: the composite fallback's final pixel dimensions are
`mag × baseWidth` by `mag × baseHeight` independently of the downsample
factor and of the pixel size, and they agree with the direct capture's
dimensions exactly in the undownsampled case `downsample = 1`. -/
theorem capture_dims_agree_without_downsample (mag W H : Nat) (px : ℚ) :
    Player.saveCompositeImage_dims mag W H px
      = Player.saveMagnifiedImage_dims mag W H 1 := by
  simp [Player.saveCompositeImage_dims, Player.saveMagnifiedImage_dims]

/-- Every digit character produced by `Nat.digitChar` below 10 is a digit. -/
theorem digitChar_isDigit : ∀ k, k < 10 → (Nat.digitChar k).isDigit = true := by
  decide

/-- Every character of a printed natural number is a digit. -/
theorem natChars_isDigit (n : Nat) :
    ∀ c ∈ Player.natChars n, c.isDigit = true := by
  induction n using Nat.strong_induction_on with
  | _ n ih =>
    rw [Player.natChars.eq_def]
    split
    · next hlt =>
      intro c hc
      rw [List.mem_singleton] at hc
      subst hc
      exact digitChar_isDigit _ hlt
    · next hge =>
      intro c hc
      rw [List.mem_append, List.mem_singleton] at hc
      rcases hc with hc | hc
      · exact ih (n / 10) (Nat.div_lt_self (by omega) (by omega)) c hc
      · subst hc
        exact digitChar_isDigit _ (Nat.mod_lt n (by omega))

/-- Every character of a printed integer is numeric. -/
theorem intChars_numeric (n : Int) :
    ∀ c ∈ Player.intChars n, Player.numericChar c = true := by
  intro c hc
  unfold Player.intChars at hc
  have digit : c.isDigit = true → Player.numericChar c = true := by
    intro hd
    simp [Player.numericChar, hd]
  split at hc
  · rw [List.mem_cons] at hc
    rcases hc with hc | hc
    · subst hc; decide
    · exact digit (natChars_isDigit _ c hc)
  · exact digit (natChars_isDigit _ c hc)

/-- Every character of a fixed-point formatted `real` is numeric. -/
theorem fmtFixed3_numeric (q : ℚ) :
    ∀ c ∈ Player.fmtFixed3 q, Player.numericChar c = true := by
  intro c hc
  unfold Player.fmtFixed3 at hc
  rw [List.mem_append, List.mem_append, List.mem_cons, List.mem_append] at hc
  have digit : c.isDigit = true → Player.numericChar c = true := by
    intro hd
    simp [Player.numericChar, hd]
  rcases hc with (hsign | hint) | hpoint | hzero | hfrac
  · split at hsign
    · rw [List.mem_singleton] at hsign; subst hsign; decide
    · exact absurd hsign (List.not_mem_nil c)
  · exact digit (natChars_isDigit _ c hint)
  · subst hpoint; decide
  · rw [List.mem_replicate] at hzero
    rcases hzero with ⟨-, hz⟩
    subst hz; decide
  · exact digit (natChars_isDigit _ c hfrac)

/-- Every character of the time line is numeric, a space or the suffix. -/
theorem timePart_chars (s : Player.LabelState) :
    ∀ c ∈ Player.timePart s,
      Player.numericChar c = true ∨ c = ' ' ∨ c = 's' := by
  intro c hc
  unfold Player.timePart Player.padLeft at hc
  rw [List.mem_append, List.mem_append, List.mem_singleton] at hc
  rcases hc with (hpad | hnum) | hs
  · rw [List.mem_replicate] at hpad
    exact Or.inr (Or.inl hpad.2)
  · exact Or.inl (fmtFixed3_numeric s.time c hnum)
  · exact Or.inr (Or.inr hs)

/-- Every character of the handle line is numeric or belongs to the fixed
text `"\nHandle: pN"`. -/
theorem handlePart_chars (s : Player.LabelState) :
    ∀ c ∈ Player.handlePart s,
      Player.numericChar c = true ∨ c ∈ "\nHandle: pN".data := by
  intro c hc
  unfold Player.handlePart at hc
  split at hc
  · next hdl _ =>
    split at hc
    · rw [List.mem_cons, List.mem_append, List.mem_append] at hc
      have sub1 : ∀ x ∈ "Handle: ".data, x ∈ "\nHandle: pN".data := by decide
      have sub2 : ∀ x ∈ "pN".data, x ∈ "\nHandle: pN".data := by decide
      rcases hc with hc | ((hc | hc) | hc)
      · subst hc; right; decide
      · exact Or.inr (sub1 c hc)
      · exact Or.inl (fmtFixed3_numeric hdl.forceNorm c hc)
      · exact Or.inr (sub2 c hc)
    · exact absurd hc (List.not_mem_nil c)
  · exact absurd hc (List.not_mem_nil c)

/-- In live mode, every character of the final line is a digit or belongs
to the fixed text `"\nLive "`. -/
theorem tailPart_chars_live (s : Player.LabelState)
    (h : (s.alive && s.goLive) = true) :
    ∀ c ∈ Player.tailPart s, c.isDigit = true ∨ c ∈ "\nLive ".data := by
  intro c hc
  unfold Player.tailPart at hc
  rw [if_pos h, List.mem_cons, List.mem_append] at hc
  have sub : ∀ x ∈ "Live".data, x ∈ "\nLive ".data := by decide
  rcases hc with hc | hc | hc
  · subst hc; right; decide
  · exact Or.inr (sub c hc)
  · split at hc
    · rw [List.mem_cons] at hc
      rcases hc with hc | hc
      · subst hc; right; decide
      · exact Or.inl (natChars_isDigit s.period c hc)
    · exact absurd hc (List.not_mem_nil c)

/-- Outside live mode, every character of the final line is numeric or
belongs to the fixed text `"\nFrame "`. -/
theorem tailPart_chars_frame (s : Player.LabelState)
    (h : (s.alive && s.goLive) = false) :
    ∀ c ∈ Player.tailPart s,
      Player.numericChar c = true ∨ c ∈ "\nFrame ".data := by
  intro c hc
  unfold Player.tailPart at hc
  rw [if_neg (by simp [h]), List.mem_cons, List.mem_append] at hc
  have sub : ∀ x ∈ "Frame ".data, x ∈ "\nFrame ".data := by decide
  rcases hc with hc | hc | hc
  · subst hc; right; decide
  · exact Or.inr (sub c hc)
  · exact Or.inl (intChars_numeric s.currentFrame c hc)

/-- In live mode the label never contains the letter `F`. -/
theorem F_not_mem_live (s : Player.LabelState)
    (h : (s.alive && s.goLive) = true) : 'F' ∉ Player.buildLabel s := by
  intro hmem
  unfold Player.buildLabel at hmem
  rw [List.mem_append, List.mem_append] at hmem
  rcases hmem with (ht | hh) | htl
  · exact absurd (timePart_chars s 'F' ht) (by decide)
  · exact absurd (handlePart_chars s 'F' hh) (by decide)
  · exact absurd (tailPart_chars_live s h 'F' htl) (by decide)

/-- Outside live mode the label never contains the letter `L`. -/
theorem L_not_mem_frame (s : Player.LabelState)
    (h : (s.alive && s.goLive) = false) : 'L' ∉ Player.buildLabel s := by
  intro hmem
  unfold Player.buildLabel at hmem
  rw [List.mem_append, List.mem_append] at hmem
  rcases hmem with (ht | hh) | htl
  · exact absurd (timePart_chars s 'L' ht) (by decide)
  · exact absurd (handlePart_chars s 'L' hh) (by decide)
  · exact absurd (tailPart_chars_frame s h 'L' htl) (by decide)

/-- A substring of a list is a substring of any left-extension of it. -/
theorem substr_append_left {l m : List Char} (pre : List Char)
    (h : l <:+: m) : l <:+: pre ++ m := by
  obtain ⟨u, v, huv⟩ := h
  exact ⟨pre ++ u, v, by rw [← huv]; simp⟩

/-- In live mode the label contains the substring `Live`. -/
theorem live_substr (s : Player.LabelState)
    (h : (s.alive && s.goLive) = true) :
    "Live".data <:+: Player.buildLabel s := by
  unfold Player.buildLabel
  apply substr_append_left
  refine ⟨['\n'], if 1 < s.period then ' ' :: Player.natChars s.period else [], ?_⟩
  simp [Player.tailPart, h]

/-- Outside live mode the label contains the substring `Frame`. -/
theorem frame_substr (s : Player.LabelState)
    (h : (s.alive && s.goLive) = false) :
    "Frame".data <:+: Player.buildLabel s := by
  unfold Player.buildLabel
  apply substr_append_left
  refine ⟨['\n'], ' ' :: Player.intChars s.currentFrame, ?_⟩
  unfold Player.tailPart
  rw [if_neg (by simp [h])]
  have hF : "Frame ".data = "Frame".data ++ [' '] := rfl
  rw [hF]
  simp

/-- C6: for every session state, the label built by `buildLabel` contains
the substring `Live` or the substring `Frame`, never both and never
neither: exactly one of the two branches of player_disp.cc:76-86
contributes to the label. -/
theorem buildLabel_live_xor_frame (s : Player.LabelState) :
    ("Live".data <:+: Player.buildLabel s
      ∧ ¬ ("Frame".data <:+: Player.buildLabel s))
    ∨ (¬ ("Live".data <:+: Player.buildLabel s)
      ∧ "Frame".data <:+: Player.buildLabel s) := by
  cases h : s.alive && s.goLive with
  | true =>
    left
    refine ⟨live_substr s h, fun hin => ?_⟩
    exact F_not_mem_live s h (hin.subset (by decide))
  | false =>
    right
    refine ⟨fun hin => ?_, frame_substr s h⟩
    exact L_not_mem_frame s h (hin.subset (by decide))
